import Mathlib

/-!
# PowerTetris capacity-expansion optimizer: formal model

A shallow embedding of the optimization core of the PowerTetris repository:
the server-side LP builder `buildLPModel`, the cost annualizers
`getAnnualFixedCost` (server) and `getWeeklyFixedCost` (client), and the
result extraction of `optimizeWithHiGHS`.

Modelling conventions:
* JavaScript numbers are embedded as rationals (`ℚ`); the numeric literals
  `0.9`, `0.001`, `0.1` of the source become `9/10`, `1/1000`, `1/10`.
* `Math.pow(1 + r, n)` with the integer technology lifetime `n` becomes
  `(1 + r) ^ n` with `n : ℕ`.
* The JS `a || b` default idiom (which takes `b` when `a` is `undefined`
  or `0`) is embedded as `jsOr : Option ℚ → ℚ → ℚ`.
* The LP, which the source assembles as CPLEX-LP-format text, is embedded
  structurally: a constraint is a named list of (coefficient, variable)
  terms together with a relation (`≤` or `=`) and a right-hand side;
  the objective is a list of (coefficient, variable) terms; every variable
  ever registered gets the bound `var ≥ 0`, exactly as the source emits
  `v >= 0` for each member of its `vars` set.
* The HiGHS solver is an external collaborator: its output is embedded as
  a status string plus a primal assignment `LPVar → ℚ`, and the result
  extraction is a function of that assignment.
-/

namespace PowerTetris

/-- A technology definition as supplied per request (`TechDefinition` in the
source): economics, category string, and the enabled / fixed flags. -/
structure Tech where
  id : String
  type : String
  enabled : Bool
  isFixed : Bool
  fixedCapacity : Option ℚ
  capex : ℚ
  capexPerKwh : Option ℚ
  duration : Option ℚ
  wacc : ℚ
  lifetime : ℕ
  opexFixed : ℚ
  opexVar : ℚ
  fuelCost : ℚ
  co2 : ℚ
  deriving DecidableEq, Repr

/-- One hour of a representative week (`HourlyRecord`): demand, the recorded
availability factors, the owning week's weight and its stats flag. -/
structure Row where
  demand : ℚ
  solar : ℚ
  wind : ℚ
  offshore : ℚ
  weight : ℚ
  includeInStats : Bool
  deriving DecidableEq, Repr

/-- The JS `a || b` default: `b` when `a` is absent or zero. -/
def jsOr (a : Option ℚ) (b : ℚ) : ℚ :=
  match a with
  | none => b
  | some v => if v = 0 then b else v

/-- The capital recovery factor `r·(1+r)^n / ((1+r)^n − 1)`. -/
def crf (r : ℚ) (n : ℕ) : ℚ := (r * (1 + r) ^ n) / ((1 + r) ^ n - 1)

/-- Server-side `getAnnualFixedCost`: annualized capex (CRF, or straight-line
`capex/n` at zero discount rate, or `0` when the lifetime is not positive)
plus fixed opex. -/
def getAnnualFixedCost (t : Tech) : ℚ :=
  let r := t.wacc / 100
  let n := t.lifetime
  let annualizedCapex : ℚ :=
    if 0 < n then (if r = 0 then t.capex / n else t.capex * crf r n) else 0
  annualizedCapex + t.opexFixed

/-- Client-side `getWeeklyFixedCost`: the same annualized fixed cost,
divided by 52 weeks. -/
def getWeeklyFixedCost (t : Tech) : ℚ :=
  let r := t.wacc / 100
  let n := t.lifetime
  let annualizedCapex : ℚ :=
    if 0 < n then (if r = 0 then t.capex / n else t.capex * crf r n) else 0
  let annualFixedOpex := t.opexFixed
  let totalAnnualFixed := annualizedCapex + annualFixedOpex
  totalAnnualFixed / 52

/-- `getMarginalCost`: variable opex plus fuel cost. -/
def getMarginalCost (t : Tech) : ℚ := t.opexVar + t.fuelCost

/-- The per-MWh-of-energy-capacity annual fixed cost the server uses for a
storage technology, both in the LP objective and in the cost recomputation:
capex per kWh (or capex divided by duration) annualized, plus fixed opex
divided by duration, times 1000. -/
def storageAnnualCostPerMwh (t : Tech) : ℚ :=
  let costPerKwh := jsOr t.capexPerKwh (t.capex / jsOr t.duration 4)
  let r := t.wacc / 100
  let n := t.lifetime
  let annualizedCapexPerKwh : ℚ :=
    if 0 < n then (if r = 0 then costPerKwh / n else costPerKwh * crf r n) else 0
  (annualizedCapexPerKwh + t.opexFixed / jsOr t.duration 4) * 1000

/-- The LP variables the server registers: power capacity `c_id`, storage
energy capacity `e_id`, hourly generation `g_id_i`, battery charge /
discharge / state of charge `b_ch_i`, `b_dis_i`, `b_soc_i`, and hourly
unserved energy `u_i`. -/
inductive LPVar where
  | c (id : String)
  | e (id : String)
  | g (id : String) (i : ℕ)
  | bch (i : ℕ)
  | bdis (i : ℕ)
  | bsoc (i : ℕ)
  | u (i : ℕ)
  deriving DecidableEq, Repr

/-- Constraint relation: `≤` or `=`. -/
inductive Rel where
  | le
  | eq
  deriving DecidableEq, Repr

/-- `Rel.holds r a b` is `a ≤ b` or `a = b` according to `r`. -/
def Rel.holds : Rel → ℚ → ℚ → Prop
  | Rel.le, a, b => a ≤ b
  | Rel.eq, a, b => a = b

instance (r : Rel) (a b : ℚ) : Decidable (r.holds a b) :=
  match r with
  | Rel.le => inferInstanceAs (Decidable (a ≤ b))
  | Rel.eq => inferInstanceAs (Decidable (a = b))

/-- One LP constraint row: a name, linear terms, a relation and a RHS. -/
structure Cst where
  name : String
  terms : List (ℚ × LPVar)
  rel : Rel
  rhs : ℚ
  deriving DecidableEq, Repr

/-- Value of a list of linear terms under a primal assignment. -/
def evalTerms (x : LPVar → ℚ) (ts : List (ℚ × LPVar)) : ℚ :=
  (ts.map (fun p => p.1 * x p.2)).sum

/-- A constraint holds under an assignment. -/
def cstHolds (x : LPVar → ℚ) (c : Cst) : Prop :=
  c.rel.holds (evalTerms x c.terms) c.rhs

instance (x : LPVar → ℚ) (c : Cst) : Decidable (cstHolds x c) :=
  inferInstanceAs (Decidable (c.rel.holds _ _))

/-- The structured LP the builder produces: objective terms (minimized),
constraint rows, and the set of registered variables (each of which is
bounded below by 0). -/
structure LP where
  objective : List (ℚ × LPVar)
  constraints : List Cst
  vars : List LPVar
  deriving Repr

/-- Feasibility: every constraint row holds and every registered variable
is non-negative (the `Bounds` section `v >= 0` for every `v` in `vars`). -/
def satisfiesLP (lp : LP) (x : LPVar → ℚ) : Prop :=
  (∀ c ∈ lp.constraints, cstHolds x c) ∧ (∀ v ∈ lp.vars, 0 ≤ x v)

instance (lp : LP) (x : LPVar → ℚ) : Decidable (satisfiesLP lp x) :=
  inferInstanceAs (Decidable (_ ∧ _))

/-! ## The server-side LP builder (`buildLPModel`) -/

/-- The availability profile the balance loop selects for a renewable
technology at one hour: the recorded solar, wind, or offshore factor for
the three known ids, `0` otherwise. -/
def profileOf (t : Tech) (row : Row) : ℚ :=
  if t.id = "SOLAR" then row.solar
  else if t.id = "WIND" then row.wind
  else if t.id = "WIND_OFFSHORE" then row.offshore
  else 0

/-- The capacity-pin constraints for one enabled technology, emitted when
its `isFixed` flag is set: `e_id = fixedCapacity·1000` for storage,
`c_id = fixedCapacity·1000` otherwise (GW → model units). -/
def fixPins (t : Tech) : List Cst :=
  if t.type = "storage" then
    if t.isFixed then
      [⟨"fix_e_" ++ t.id, [((1 : ℚ), LPVar.e t.id)], Rel.eq, t.fixedCapacity.getD 0 * 1000⟩]
    else []
  else
    if t.isFixed then
      [⟨"fix_c_" ++ t.id, [((1 : ℚ), LPVar.c t.id)], Rel.eq, t.fixedCapacity.getD 0 * 1000⟩]
    else []

/-- The hourly capacity-link constraint for a non-storage technology:
`g − profile·c ≤ 0` for a renewable with usable availability,
`g ≤ 0` for a renewable whose availability is at or below `0.001`,
`g − c ≤ 0` for everything else. -/
def capCst (t : Tech) (i : ℕ) (row : Row) : Cst :=
  if t.type = "renewable" then
    let profile := profileOf t row
    if profile > 1/1000 then
      ⟨"cap_" ++ t.id ++ "_" ++ toString i,
        [((1 : ℚ), LPVar.g t.id i), (-profile, LPVar.c t.id)], Rel.le, 0⟩
    else
      ⟨"cap_" ++ t.id ++ "_" ++ toString i,
        [((1 : ℚ), LPVar.g t.id i)], Rel.le, 0⟩
  else
    ⟨"cap_" ++ t.id ++ "_" ++ toString i,
      [((1 : ℚ), LPVar.g t.id i), (-(1 : ℚ), LPVar.c t.id)], Rel.le, 0⟩

/-- The storage-dynamics constraint emitted at hour `i` (when a battery is
modeled): the recurrence `soc_i − soc_{i−1} − 0.9·ch_i + dis_i = 0` away
from week starts, the fresh-start reset `soc_i − 0.9·ch_i + dis_i = 0` at
the first hour of every week except hour 0, and nothing at hour 0. -/
def socDynCsts (i : ℕ) : List Cst :=
  if i % 168 ≠ 0 then
    [⟨"soc_dyn_" ++ toString i,
      [((1 : ℚ), LPVar.bsoc i), (-(1 : ℚ), LPVar.bsoc (i - 1)),
       (-(9/10 : ℚ), LPVar.bch i), ((1 : ℚ), LPVar.bdis i)], Rel.eq, 0⟩]
  else if 0 < i then
    [⟨"soc_start_" ++ toString i,
      [((1 : ℚ), LPVar.bsoc i), (-(9/10 : ℚ), LPVar.bch i),
       ((1 : ℚ), LPVar.bdis i)], Rel.eq, 0⟩]
  else []

/-- All battery constraints at hour `i`: charge and discharge power limits
(C-rate 1, so both are bounded by the energy capacity), the state-of-charge
cap, and the state-of-charge dynamics. -/
def storageCsts (battId : String) (i : ℕ) : List Cst :=
  [⟨"ch_lim_" ++ toString i,
    [((1 : ℚ), LPVar.bch i), (-(1 : ℚ), LPVar.e battId)], Rel.le, 0⟩,
   ⟨"dis_lim_" ++ toString i,
    [((1 : ℚ), LPVar.bdis i), (-(1 : ℚ), LPVar.e battId)], Rel.le, 0⟩,
   ⟨"soc_cap_" ++ toString i,
    [((1 : ℚ), LPVar.bsoc i), (-(1 : ℚ), LPVar.e battId)], Rel.le, 0⟩]
  ++ socDynCsts i

/-- The hourly balance row `bal_i`: one `+ g` term per enabled non-storage
technology (in catalog order), `+ dis − ch` when a battery is modeled,
`+ u`, equal to the hour's demand. -/
def balCst (ets : List Tech) (hasBatt : Bool) (i : ℕ) (row : Row) : Cst :=
  ⟨"bal_" ++ toString i,
    (ets.filter (fun t => t.type ≠ "storage")).map
      (fun t => ((1 : ℚ), LPVar.g t.id i))
    ++ (if hasBatt then
          [((1 : ℚ), LPVar.bdis i), (-(1 : ℚ), LPVar.bch i)] else [])
    ++ [((1 : ℚ), LPVar.u i)],
    Rel.eq, row.demand⟩

/-- All constraints the builder emits for hour `i`. -/
def hourCsts (ets : List Tech) (battId : Option String) (i : ℕ) (row : Row) :
    List Cst :=
  (ets.filter (fun t => t.type ≠ "storage")).map (fun t => capCst t i row)
  ++ (match battId with
      | some b => storageCsts b i
      | none => [])
  ++ [balCst ets battId.isSome i row]

/-- The optional aggregate minimum-renewables constraint: emitted when the
share is positive and at least one weighted generation term exists; each
term is `weight · g_id_i` for an enabled technology that is neither
renewable nor storage, over the `includeInStats` hours; the RHS is the
weighted included demand times `(1 − share/100)`. -/
def minRezCsts (ets : List Tech) (flat : List Row) (minRenewables : ℚ) :
    List Cst :=
  if minRenewables > 0 then
    let nonRez := ets.filter (fun t => t.type ≠ "renewable" ∧ t.type ≠ "storage")
    let terms := nonRez.flatMap (fun t =>
      (flat.enum.filter (fun p => p.2.includeInStats)).map
        (fun p => (p.2.weight, LPVar.g t.id p.1)))
    let totalAnnualDemand :=
      ((flat.filter (fun r => r.includeInStats)).map
        (fun r => r.demand * r.weight)).sum
    if terms ≠ [] then
      [⟨"min_res_global", terms, Rel.le, totalAnnualDemand * (1 - minRenewables / 100)⟩]
    else []
  else []

/-- The variables the builder registers (each later bounded `≥ 0`). -/
def lpVars (ets : List Tech) (battId : Option String) (T : ℕ) : List LPVar :=
  ets.map (fun t => if t.type = "storage" then LPVar.e t.id else LPVar.c t.id)
  ++ (List.range T).flatMap (fun i =>
      (ets.filter (fun t => t.type ≠ "storage")).map (fun t => LPVar.g t.id i)
      ++ (if battId.isSome then [LPVar.bch i, LPVar.bdis i, LPVar.bsoc i] else [])
      ++ [LPVar.u i])

/-- The objective terms: annualized fixed unit cost per capacity variable
(`storageAnnualCostPerMwh` for storage energy capacity,
`getAnnualFixedCost·1000` for power capacity), weighted marginal cost per
positive-cost generation variable, the `0.1`-per-unit cycling cost on
battery charge, and the value-of-lost-load penalty `20 000 000` (weighted)
on unserved energy. -/
def objTerms (ets : List Tech) (battId : Option String) (flat : List Row) :
    List (ℚ × LPVar) :=
  ets.map (fun t =>
    if t.type = "storage" then (storageAnnualCostPerMwh t, LPVar.e t.id)
    else (getAnnualFixedCost t * 1000, LPVar.c t.id))
  ++ flat.enum.flatMap (fun p =>
      (ets.filter (fun t => t.type ≠ "storage")).filterMap (fun t =>
        if getMarginalCost t > 0 then
          some (getMarginalCost t * p.2.weight, LPVar.g t.id p.1)
        else none)
      ++ (if battId.isSome then [((1/10 : ℚ) * p.2.weight, LPVar.bch p.1)] else [])
      ++ [((20000000 : ℚ) * p.2.weight, LPVar.u p.1)])

/-- The enabled technologies of a catalog, in catalog order. -/
def enabledOf (techs : List Tech) : List Tech := techs.filter (fun t => t.enabled)

/-- The first enabled storage technology's id, if any (`battTech`). -/
def battIdOf (techs : List Tech) : Option String :=
  ((enabledOf techs).find? (fun t => t.type = "storage")).map (fun t => t.id)

/-- The concatenated representative-week timeline (`dataChunks.flat()`). -/
def flatRows (dataChunks : List (List Row)) : List Row := dataChunks.flatten

/-- `buildLPModel`: the complete LP for a technology catalog, a list of
representative-week chunks, and the minimum-renewables share. -/
def buildLPModel (techs : List Tech) (dataChunks : List (List Row))
    (minRenewables : ℚ) : LP :=
  let ets := enabledOf techs
  let flat := flatRows dataChunks
  let battId := battIdOf techs
  { objective := objTerms ets battId flat
    constraints :=
      ets.flatMap fixPins
      ++ flat.enum.flatMap (fun p => hourCsts ets battId p.1 p.2)
      ++ minRezCsts ets flat minRenewables
    vars := lpVars ets battId flat.length }

/-! ## Result extraction (`optimizeWithHiGHS`)

The solver is external: it hands back a status string and, on success, a
primal value for every variable. Extraction is a pure function of that
assignment; a missing column reads as `0` in the source (`?.Primal || 0`),
which the total assignment `x : LPVar → ℚ` subsumes. -/

/-- What the HiGHS adapter returns: a status and a primal assignment. -/
structure SolverResult where
  status : String
  primal : LPVar → ℚ

/-- The installed capacity extracted for one enabled technology: the primal
of its energy-capacity variable for storage, of its power-capacity variable
otherwise. -/
def extractCapacity (x : LPVar → ℚ) (t : Tech) : ℚ :=
  if t.type = "storage" then x (LPVar.e t.id) else x (LPVar.c t.id)

/-- The curtailment contribution of one technology at hour `i`: for a
renewable, the spilled potential `capacity·profile − gen` counted only when
it exceeds the `0.001` reporting tolerance; `0` for every other type. -/
def curtailContrib (x : LPVar → ℚ) (caps : String → ℚ) (i : ℕ) (row : Row)
    (t : Tech) : ℚ :=
  if t.type = "renewable" then
    let gen := x (LPVar.g t.id i)
    let potential := caps t.id * profileOf t row
    if potential > gen + 1/1000 then potential - gen else 0
  else 0

/-- The reported `row.curtailment` for hour `i`: the tolerance-filtered
spill summed over the enabled non-storage technologies. -/
def hourlyCurtailment (x : LPVar → ℚ) (caps : String → ℚ) (ets : List Tech)
    (i : ℕ) (row : Row) : ℚ :=
  ((ets.filter (fun t => t.type ≠ "storage")).map
    (curtailContrib x caps i row)).sum

/-- Weighted demand over the `includeInStats` hours (`annualDemand`). -/
def annualDemandOf (flat : List Row) : ℚ :=
  ((flat.filter (fun r => r.includeInStats)).map
    (fun r => r.demand * r.weight)).sum

/-- Weighted unserved energy over the `includeInStats` hours
(`annualUnserved`), read off the primal `u_i` values. -/
def annualUnservedOf (x : LPVar → ℚ) (flat : List Row) : ℚ :=
  ((flat.enum.filter (fun p => p.2.includeInStats)).map
    (fun p => x (LPVar.u p.1) * p.2.weight)).sum

/-- The recomputed annual fixed cost (`totalFixedCost`): the same per-unit
annual cost used in the objective, times each extracted capacity. -/
def totalFixedCostOf (x : LPVar → ℚ) (ets : List Tech) : ℚ :=
  (ets.map (fun t =>
    if t.type = "storage" then storageAnnualCostPerMwh t * extractCapacity x t
    else getAnnualFixedCost t * 1000 * extractCapacity x t)).sum

/-- The recomputed weighted variable cost (`totalVariableCost`) over the
`includeInStats` hours: marginal generation cost, the `0.1` battery-cycling
cost, and the `20 000 000` lost-load penalty. -/
def totalVariableCostOf (x : LPVar → ℚ) (ets : List Tech)
    (hasBatt : Bool) (flat : List Row) : ℚ :=
  ((flat.enum.filter (fun p => p.2.includeInStats)).map (fun p =>
    ((ets.filter (fun t => t.type ≠ "storage")).map
      (fun t => x (LPVar.g t.id p.1) * getMarginalCost t * p.2.weight)).sum
    + (if hasBatt then x (LPVar.bch p.1) * (1/10) * p.2.weight else 0)
    + x (LPVar.u p.1) * 20000000 * p.2.weight)).sum

/-- The per-hour output record the claims are about: the shortfall and the
derived curtailment reported for that hour. -/
structure HourOut where
  shortfall : ℚ
  curtailment : ℚ
  deriving DecidableEq, Repr

/-- The aggregated `SimulationResult` fields the claims are about. -/
structure SimResult where
  capacities : List (String × ℚ)
  hourly : List HourOut
  totalCost : ℚ
  annualServed : ℚ
  unservedEnergy : ℚ
  lcoe : ℚ
  deriving DecidableEq, Repr

/-- The `capacities` record built by the extractor, as a lookup function:
the extracted capacity of the first enabled technology with the given id. -/
def capsOf (x : LPVar → ℚ) (ets : List Tech) : String → ℚ := fun id =>
  match ets.find? (fun t => t.id = id) with
  | some t => extractCapacity x t
  | none => 0

/-- The extraction stage of `optimizeWithHiGHS`, as a function of the
primal assignment: capacities, per-hour shortfall and curtailment, the
independently recomputed total cost, and the guarded LCOE
`totalCost / max(0.1, annualDemand − annualUnserved)`. -/
def extractResults (techs : List Tech) (dataChunks : List (List Row))
    (x : LPVar → ℚ) : SimResult :=
  let ets := enabledOf techs
  let flat := flatRows dataChunks
  let caps := capsOf x ets
  let annualDemand := annualDemandOf flat
  let annualUnserved := annualUnservedOf x flat
  let totalCost := totalFixedCostOf x ets
    + totalVariableCostOf x ets (battIdOf techs).isSome flat
  let totalServed := max (1/10) (annualDemand - annualUnserved)
  { capacities := ets.map (fun t => (t.id, extractCapacity x t))
    hourly := flat.enum.map (fun p =>
      { shortfall := x (LPVar.u p.1)
        curtailment := hourlyCurtailment x caps ets p.1 p.2 })
    totalCost := totalCost
    annualServed := totalServed
    unservedEnergy := annualUnserved
    lcoe := totalCost / totalServed }

/-- `optimizeWithHiGHS`, relative to the solver's answer: any status other
than `Optimal` raises `Solver failed: <status>`; only an `Optimal` status
reaches extraction. -/
def optimizeWithHiGHS (techs : List Tech) (dataChunks : List (List Row))
    (result : SolverResult) : Except String SimResult :=
  if result.status ≠ "Optimal" then
    Except.error ("Solver failed: " ++ result.status)
  else
    Except.ok (extractResults techs dataChunks result.primal)

/-! ## Concrete scenarios

Small concrete catalogs, week chunks and primal assignments used to
instantiate the general theorems and to exhibit counterexamples. -/

/-- A zero-cost dispatchable technology. -/
def techGas : Tech :=
  { id := "GAS_CCGT", type := "dispatchable", enabled := true, isFixed := false
    fixedCapacity := none, capex := 0, capexPerKwh := none, duration := none
    wacc := 0, lifetime := 0, opexFixed := 0, opexVar := 0, fuelCost := 0, co2 := 0 }

/-- A solar technology. -/
def techSolar : Tech :=
  { id := "SOLAR", type := "renewable", enabled := true, isFixed := false
    fixedCapacity := none, capex := 850, capexPerKwh := none, duration := none
    wacc := 0, lifetime := 0, opexFixed := 0, opexVar := 0, fuelCost := 0, co2 := 0 }

/-- A battery technology with zero cost inputs. -/
def techBatt : Tech :=
  { id := "BATTERY", type := "storage", enabled := true, isFixed := false
    fixedCapacity := none, capex := 0, capexPerKwh := some 120, duration := some 4
    wacc := 0, lifetime := 0, opexFixed := 0, opexVar := 0, fuelCost := 0, co2 := 0 }

/-- A battery technology with a positive discount rate and lifetime. -/
def techBatt2 : Tech :=
  { id := "BATTERY", type := "storage", enabled := true, isFixed := false
    fixedCapacity := none, capex := 0, capexPerKwh := some 100, duration := some 4
    wacc := 10, lifetime := 2, opexFixed := 8, opexVar := 0, fuelCost := 0, co2 := 0 }

/-- A baseload technology pinned to a fixed capacity of 2 GW. -/
def techNukeFix : Tech :=
  { id := "NUCLEAR", type := "baseload", enabled := true, isFixed := true
    fixedCapacity := some 2, capex := 0, capexPerKwh := none, duration := none
    wacc := 0, lifetime := 0, opexFixed := 0, opexVar := 0, fuelCost := 0, co2 := 0 }

/-- An hour with demand 5 and no renewable resource. -/
def rowD5 : Row :=
  { demand := 5, solar := 0, wind := 0, offshore := 0, weight := 1, includeInStats := true }

/-- An hour with demand 3 and no renewable resource. -/
def rowD3 : Row :=
  { demand := 3, solar := 0, wind := 0, offshore := 0, weight := 1, includeInStats := true }

/-- An hour with demand 5 and a solar factor of one half. -/
def rowSun : Row :=
  { demand := 5, solar := 1/2, wind := 0, offshore := 0, weight := 1, includeInStats := true }

/-- An hour with zero demand and a tiny (sub-tolerance) solar factor. -/
def rowDim : Row :=
  { demand := 0, solar := 1/2000, wind := 0, offshore := 0, weight := 1, includeInStats := true }

/-- Assignment for the gas-only, one-hour scenario: capacity and
generation 5, nothing unserved. -/
def xGas : LPVar → ℚ
  | LPVar.c "GAS_CCGT" => 5
  | LPVar.g "GAS_CCGT" 0 => 5
  | _ => 0

/-- Assignment for the gas-only scenario under the 50 % renewables policy:
generation 2, the rest unserved. -/
def xGasHalf : LPVar → ℚ
  | LPVar.c "GAS_CCGT" => 5
  | LPVar.g "GAS_CCGT" 0 => 2
  | LPVar.u 0 => 3
  | _ => 0

/-- Assignment for the battery-only, one-hour scenario: energy capacity 2,
a nonzero initial state of charge with no charging, demand unserved. -/
def xBatt : LPVar → ℚ
  | LPVar.e "BATTERY" => 2
  | LPVar.bsoc 0 => 1
  | LPVar.u 0 => 3
  | _ => 0

/-- Assignment for the battery-only, two-hour scenario: idle battery,
demand unserved in both hours. -/
def xBatt2 : LPVar → ℚ
  | LPVar.e "BATTERY" => 2
  | LPVar.u 0 => 3
  | LPVar.u 1 => 3
  | _ => 0

/-- Assignment for the solar-only scenario: capacity 2, generation 1,
unserved 4. -/
def xSun : LPVar → ℚ
  | LPVar.c "SOLAR" => 2
  | LPVar.g "SOLAR" 0 => 1
  | LPVar.u 0 => 4
  | _ => 0

/-- Assignment for the sub-tolerance solar scenario: capacity 1, nothing
generated, nothing unserved. -/
def xDim : LPVar → ℚ
  | LPVar.c "SOLAR" => 1
  | _ => 0

/-- Assignment for the pinned-nuclear scenario: capacity at the pinned
2000 model units, generation 5. -/
def xNuke : LPVar → ℚ
  | LPVar.c "NUCLEAR" => 2000
  | LPVar.g "NUCLEAR" 0 => 5
  | _ => 0

/-- Assignment for the no-technology scenario: all demand unserved. -/
def xNone : LPVar → ℚ
  | LPVar.u 0 => 5
  | _ => 0

/-! ## Basic lemmas about the LP semantics -/

lemma evalTerms_append (x : LPVar → ℚ) (l1 l2 : List (ℚ × LPVar)) :
    evalTerms x (l1 ++ l2) = evalTerms x l1 + evalTerms x l2 := by
  simp [evalTerms]

lemma evalTerms_map_one (x : LPVar → ℚ) (l : List Tech) (f : Tech → LPVar) :
    evalTerms x (l.map (fun t => ((1 : ℚ), f t))) = (l.map (fun t => x (f t))).sum := by
  simp [evalTerms, List.map_map, Function.comp_def]

lemma evalTerms_flatMap {α : Type} (x : LPVar → ℚ) (l : List α)
    (f : α → List (ℚ × LPVar)) :
    evalTerms x (l.flatMap f) = (l.map (fun a => evalTerms x (f a))).sum := by
  induction l with
  | nil => simp [evalTerms]
  | cons a l ih => simp [List.flatMap_cons, evalTerms_append, ih]

lemma fst_lt_of_mem_enum {α : Type} {l : List α} {i : ℕ} {a : α}
    (h : (i, a) ∈ l.enum) : i < l.length := by
  rw [List.mk_mem_enum_iff_getElem?] at h
  exact (List.getElem?_eq_some.mp h).1

/-- Anything in the per-hour constraint block of an in-range hour is in the
built model. -/
lemma mem_constraints_of_hour {techs : List Tech} {chunks : List (List Row)}
    {mr : ℚ} {i : ℕ} {row : Row} {c : Cst}
    (hrow : (i, row) ∈ (flatRows chunks).enum)
    (hc : c ∈ hourCsts (enabledOf techs) (battIdOf techs) i row) :
    c ∈ (buildLPModel techs chunks mr).constraints := by
  have : c ∈ (flatRows chunks).enum.flatMap
      (fun p => hourCsts (enabledOf techs) (battIdOf techs) p.1 p.2) :=
    List.mem_flatMap.mpr ⟨(i, row), hrow, hc⟩
  simp only [buildLPModel, List.mem_append]
  exact Or.inl (Or.inr this)

/-- Any capacity pin of an enabled technology is in the built model. -/
lemma mem_constraints_of_pin {techs : List Tech} {chunks : List (List Row)}
    {mr : ℚ} {t : Tech} {c : Cst}
    (ht : t ∈ enabledOf techs) (hc : c ∈ fixPins t) :
    c ∈ (buildLPModel techs chunks mr).constraints := by
  simp only [buildLPModel, List.mem_append]
  exact Or.inl (Or.inl (List.mem_flatMap.mpr ⟨t, ht, hc⟩))

/-- The generation variable of an enabled non-storage technology at an
in-range hour is registered (hence bounded below by 0). -/
lemma g_mem_vars {techs : List Tech} {chunks : List (List Row)} {mr : ℚ}
    {t : Tech} {i : ℕ}
    (ht : t ∈ enabledOf techs) (hst : t.type ≠ "storage")
    (hi : i < (flatRows chunks).length) :
    LPVar.g t.id i ∈ (buildLPModel techs chunks mr).vars := by
  simp only [buildLPModel, lpVars, List.mem_append]
  refine Or.inr (List.mem_flatMap.mpr ⟨i, List.mem_range.mpr hi, ?_⟩)
  simp only [List.mem_append]
  refine Or.inl (Or.inl (List.mem_map.mpr ⟨t, ?_, rfl⟩))
  simp only [List.mem_filter, decide_eq_true_eq]
  exact ⟨ht, hst⟩

/-- The hourly balance equation, read off the `bal_i` row: generation from
the enabled non-storage technologies, plus battery discharge minus charge
when a battery is modeled, plus unserved energy, equals demand. -/
lemma balance_eq {techs : List Tech} {chunks : List (List Row)} {mr : ℚ}
    {x : LPVar → ℚ} {i : ℕ} {row : Row}
    (hx : satisfiesLP (buildLPModel techs chunks mr) x)
    (hrow : (i, row) ∈ (flatRows chunks).enum) :
    (((enabledOf techs).filter (fun t => t.type ≠ "storage")).map
        (fun t => x (LPVar.g t.id i))).sum
      + (if (battIdOf techs).isSome then x (LPVar.bdis i) - x (LPVar.bch i) else 0)
      + x (LPVar.u i) = row.demand := by
  have hmem : balCst (enabledOf techs) (battIdOf techs).isSome i row
      ∈ (buildLPModel techs chunks mr).constraints := by
    refine mem_constraints_of_hour hrow ?_
    simp [hourCsts]
  have hc := hx.1 _ hmem
  simp only [cstHolds, balCst, Rel.holds] at hc
  rw [evalTerms_append, evalTerms_append, evalTerms_map_one] at hc
  rw [← hc]
  cases hb : (battIdOf techs).isSome
  all_goals simp [evalTerms]
  all_goals ring

/-! ## Claim theorems -/

/-- C1: for every hour of the concatenated representative-week timeline,
the LP built by `buildLPModel` forces the balance equation: the sum of
generation over the enabled non-storage technologies, plus storage
discharge minus storage charge (when a storage technology is modeled),
plus unserved energy, equals the hour's demand — so every feasible
assignment satisfies it. -/
theorem balance_constraint_holds {techs : List Tech} {chunks : List (List Row)}
    {mr : ℚ} {x : LPVar → ℚ} {i : ℕ} {row : Row}
    (hx : satisfiesLP (buildLPModel techs chunks mr) x)
    (hrow : (i, row) ∈ (flatRows chunks).enum) :
    (((enabledOf techs).filter (fun t => t.type ≠ "storage")).map
        (fun t => x (LPVar.g t.id i))).sum
      + (if (battIdOf techs).isSome then x (LPVar.bdis i) - x (LPVar.bch i) else 0)
      + x (LPVar.u i) = row.demand :=
  balance_eq hx hrow

/-- Witness for C1: the one-technology, one-hour scenario with demand 5. -/
theorem balance_constraint_holds_witness :
    satisfiesLP (buildLPModel [techGas] [[rowD5]] 0) xGas ∧
    (0, rowD5) ∈ (flatRows [[rowD5]]).enum ∧
    (((enabledOf [techGas]).filter (fun t => t.type ≠ "storage")).map
        (fun t => xGas (LPVar.g t.id 0))).sum
      + (if (battIdOf [techGas]).isSome then xGas (LPVar.bdis 0) - xGas (LPVar.bch 0) else 0)
      + xGas (LPVar.u 0) = rowD5.demand := by
  have h1 : satisfiesLP (buildLPModel [techGas] [[rowD5]] 0) xGas := by
    simp only [satisfiesLP, buildLPModel, enabledOf, flatRows, battIdOf, objTerms,
      lpVars, hourCsts, storageCsts, socDynCsts, capCst, balCst, fixPins,
      minRezCsts, profileOf, cstHolds, evalTerms, Rel.holds,
      techGas, rowD5, List.enum, List.enumFrom, List.flatten, List.filter,
      List.map, List.flatMap, List.append, List.range, List.range.loop,
      List.find?, Option.map, Option.isSome]
    simp [xGas]
  have h2 : (0, rowD5) ∈ (flatRows [[rowD5]]).enum := by
    simp [flatRows, List.enum, List.enumFrom]
  exact ⟨h1, h2, balance_constraint_holds h1 h2⟩

/-- C2 counterexample: at hour 0 — the first hour of the first
representative week — the built LP imposes no state-of-charge reset: a
feasible assignment can carry a nonzero initial state of charge with no
charging at all, and no `soc_start_0` constraint exists. -/
theorem soc_reset_counterexample :
    satisfiesLP (buildLPModel [techBatt] [[rowD3]] 0) xBatt ∧
    (0 : ℕ) % 168 = 0 ∧
    xBatt (LPVar.bsoc 0) ≠ (9/10) * xBatt (LPVar.bch 0) - xBatt (LPVar.bdis 0) ∧
    ∀ c ∈ (buildLPModel [techBatt] [[rowD3]] 0).constraints,
      c.name ≠ "soc_start_" ++ toString 0 := by
  refine ⟨?_, rfl, ?_, ?_⟩
  · simp only [satisfiesLP, buildLPModel, enabledOf, flatRows, battIdOf, objTerms,
      lpVars, hourCsts, storageCsts, socDynCsts, capCst, balCst, fixPins,
      minRezCsts, profileOf, cstHolds, evalTerms, Rel.holds,
      techBatt, rowD3, List.enum, List.enumFrom, List.flatten, List.filter,
      List.map, List.flatMap, List.append, List.range, List.range.loop,
      List.find?, Option.map, Option.isSome]
    simp [xBatt]
  · simp [xBatt]
  · intro c hc
    revert hc
    simp only [buildLPModel, enabledOf, flatRows, battIdOf, objTerms,
      lpVars, hourCsts, storageCsts, socDynCsts, capCst, balCst, fixPins,
      minRezCsts, profileOf, techBatt, rowD3, List.enum, List.enumFrom,
      List.flatten, List.filter, List.map, List.flatMap, List.append,
      List.range, List.range.loop, List.find?, Option.map, Option.isSome]
    intro hc
    fin_cases hc <;> decide

/-- C2 (amended): with a storage technology enabled, every feasible
assignment satisfies the recurrence
`soc_h = soc_{h−1} + 0.9·charge_h − discharge_h` at every hour that is not
the first hour of a representative week, and the fresh-start reset
`soc_h = 0.9·charge_h − discharge_h` at the first hour of every
representative week other than hour 0; at hour 0 no state-of-charge
dynamics constraint is imposed. -/
theorem soc_dynamics {techs : List Tech} {chunks : List (List Row)} {mr : ℚ}
    {x : LPVar → ℚ} {b : String} {i : ℕ} {row : Row}
    (hb : battIdOf techs = some b)
    (hx : satisfiesLP (buildLPModel techs chunks mr) x)
    (hrow : (i, row) ∈ (flatRows chunks).enum) :
    (i % 168 ≠ 0 →
      x (LPVar.bsoc i) =
        x (LPVar.bsoc (i - 1)) + (9/10) * x (LPVar.bch i) - x (LPVar.bdis i)) ∧
    (i % 168 = 0 → 0 < i →
      x (LPVar.bsoc i) = (9/10) * x (LPVar.bch i) - x (LPVar.bdis i)) := by
  constructor
  · intro hmod
    have hmem : (⟨"soc_dyn_" ++ toString i,
        [((1 : ℚ), LPVar.bsoc i), (-(1 : ℚ), LPVar.bsoc (i - 1)),
         (-(9/10 : ℚ), LPVar.bch i), ((1 : ℚ), LPVar.bdis i)], Rel.eq, 0⟩ : Cst)
        ∈ (buildLPModel techs chunks mr).constraints := by
      refine mem_constraints_of_hour hrow ?_
      simp [hourCsts, hb, storageCsts, socDynCsts, hmod]
    have hc := hx.1 _ hmem
    simp only [cstHolds, Rel.holds, evalTerms, List.map_cons, List.map_nil,
      List.sum_cons, List.sum_nil] at hc
    linarith
  · intro hmod hpos
    have hmem : (⟨"soc_start_" ++ toString i,
        [((1 : ℚ), LPVar.bsoc i), (-(9/10 : ℚ), LPVar.bch i),
         ((1 : ℚ), LPVar.bdis i)], Rel.eq, 0⟩ : Cst)
        ∈ (buildLPModel techs chunks mr).constraints := by
      refine mem_constraints_of_hour hrow ?_
      simp [hourCsts, hb, storageCsts, socDynCsts, hmod, hpos, Nat.pos_iff_ne_zero.mp hpos]
    have hc := hx.1 _ hmem
    simp only [cstHolds, Rel.holds, evalTerms, List.map_cons, List.map_nil,
      List.sum_cons, List.sum_nil] at hc
    linarith

/-- Witness for C2 (amended): the battery-only, two-hour scenario, at
hour 1 (a non-week-start hour). -/
theorem soc_dynamics_witness :
    battIdOf [techBatt] = some "BATTERY" ∧
    satisfiesLP (buildLPModel [techBatt] [[rowD3, rowD3]] 0) xBatt2 ∧
    (1, rowD3) ∈ (flatRows [[rowD3, rowD3]]).enum ∧
    ((1 % 168 ≠ 0 →
      xBatt2 (LPVar.bsoc 1) =
        xBatt2 (LPVar.bsoc 0) + (9/10) * xBatt2 (LPVar.bch 1) - xBatt2 (LPVar.bdis 1)) ∧
    (1 % 168 = 0 → 0 < 1 →
      xBatt2 (LPVar.bsoc 1) = (9/10) * xBatt2 (LPVar.bch 1) - xBatt2 (LPVar.bdis 1))) := by
  have h0 : battIdOf [techBatt] = some "BATTERY" := by
    simp [battIdOf, enabledOf, techBatt, List.find?]
  have h1 : satisfiesLP (buildLPModel [techBatt] [[rowD3, rowD3]] 0) xBatt2 := by
    simp only [satisfiesLP, buildLPModel, enabledOf, flatRows, battIdOf, objTerms,
      lpVars, hourCsts, storageCsts, socDynCsts, capCst, balCst, fixPins,
      minRezCsts, profileOf, cstHolds, evalTerms, Rel.holds,
      techBatt, rowD3, List.enum, List.enumFrom, List.flatten, List.filter,
      List.map, List.flatMap, List.append, List.range, List.range.loop,
      List.find?, Option.map, Option.isSome]
    simp [xBatt2]
  have h2 : (1, rowD3) ∈ (flatRows [[rowD3, rowD3]]).enum := by
    simp [flatRows, List.enum, List.enumFrom]
  exact ⟨h0, h1, h2, soc_dynamics h0 h1 h2⟩

/-- C3: every enabled non-storage technology gets its hourly capacity-link
row: for a renewable, generation is bounded by `availability · capacity`
when the hour's recorded factor exceeds the `0.001` threshold and forced to
`0` otherwise; for a dispatchable/baseload technology, generation is
bounded by capacity. -/
theorem capacity_link {techs : List Tech} {chunks : List (List Row)} {mr : ℚ}
    {x : LPVar → ℚ} {t : Tech} {i : ℕ} {row : Row}
    (ht : t ∈ enabledOf techs) (hst : t.type ≠ "storage")
    (hx : satisfiesLP (buildLPModel techs chunks mr) x)
    (hrow : (i, row) ∈ (flatRows chunks).enum) :
    capCst t i row ∈ (buildLPModel techs chunks mr).constraints ∧
    (t.type = "renewable" →
      (profileOf t row > 1/1000 →
        x (LPVar.g t.id i) ≤ profileOf t row * x (LPVar.c t.id)) ∧
      (¬ profileOf t row > 1/1000 → x (LPVar.g t.id i) = 0)) ∧
    (t.type ≠ "renewable" → x (LPVar.g t.id i) ≤ x (LPVar.c t.id)) := by
  have hmem : capCst t i row ∈ (buildLPModel techs chunks mr).constraints := by
    refine mem_constraints_of_hour hrow ?_
    simp only [hourCsts, List.mem_append]
    refine Or.inl (Or.inl (List.mem_map.mpr ⟨t, ?_, rfl⟩))
    simp only [List.mem_filter, decide_eq_true_eq]
    exact ⟨ht, hst⟩
  have hc := hx.1 _ hmem
  have hg0 : 0 ≤ x (LPVar.g t.id i) :=
    hx.2 _ (g_mem_vars ht hst (fst_lt_of_mem_enum hrow))
  refine ⟨hmem, fun hren => ⟨fun hp => ?_, fun hp => ?_⟩, fun hnren => ?_⟩
  · simp only [capCst, hren, if_true, hp, if_pos, cstHolds, Rel.holds,
      evalTerms, List.map_cons, List.map_nil, List.sum_cons, List.sum_nil] at hc
    linarith
  · simp only [capCst, hren, if_true, hp, if_false, cstHolds, Rel.holds,
      evalTerms, List.map_cons, List.map_nil, List.sum_cons, List.sum_nil] at hc
    linarith
  · simp only [capCst, hnren, if_false, cstHolds, Rel.holds,
      evalTerms, List.map_cons, List.map_nil, List.sum_cons, List.sum_nil] at hc
    linarith

/-- Witness for C3: the solar-only scenario with availability one half. -/
theorem capacity_link_witness :
    techSolar ∈ enabledOf [techSolar] ∧
    techSolar.type ≠ "storage" ∧
    satisfiesLP (buildLPModel [techSolar] [[rowSun]] 0) xSun ∧
    (0, rowSun) ∈ (flatRows [[rowSun]]).enum ∧
    (capCst techSolar 0 rowSun ∈ (buildLPModel [techSolar] [[rowSun]] 0).constraints ∧
    (techSolar.type = "renewable" →
      (profileOf techSolar rowSun > 1/1000 →
        xSun (LPVar.g techSolar.id 0) ≤ profileOf techSolar rowSun * xSun (LPVar.c techSolar.id)) ∧
      (¬ profileOf techSolar rowSun > 1/1000 → xSun (LPVar.g techSolar.id 0) = 0)) ∧
    (techSolar.type ≠ "renewable" →
      xSun (LPVar.g techSolar.id 0) ≤ xSun (LPVar.c techSolar.id))) := by
  have ha : techSolar ∈ enabledOf [techSolar] := by
    simp [enabledOf, techSolar]
  have hb : techSolar.type ≠ "storage" := by simp [techSolar]
  have hk : satisfiesLP (buildLPModel [techSolar] [[rowSun]] 0) xSun := by
    simp only [satisfiesLP, buildLPModel, enabledOf, flatRows, battIdOf, objTerms,
      lpVars, hourCsts, storageCsts, socDynCsts, capCst, balCst, fixPins,
      minRezCsts, profileOf, cstHolds, evalTerms, Rel.holds,
      techSolar, rowSun, List.enum, List.enumFrom, List.flatten, List.filter,
      List.map, List.flatMap, List.append, List.range, List.range.loop,
      List.find?, Option.map, Option.isSome]
    simp [xSun]
    norm_num
  have hd : (0, rowSun) ∈ (flatRows [[rowSun]]).enum := by
    simp [flatRows, List.enum, List.enumFrom]
  exact ⟨ha, hb, hk, hd, capacity_link ha hb hk hd⟩

/-- C4: with a positive minimum-renewable share `mr ≤ 100` and
non-negative demands and weights, every feasible assignment keeps the
weighted generation of the enabled non-renewable, non-storage technologies
over the `includeInStats` hours at or below `(1 − mr/100)` times the
weighted demand over those hours. -/
theorem min_renewables_cap {techs : List Tech} {chunks : List (List Row)}
    {x : LPVar → ℚ} {mr : ℚ}
    (hmr : 0 < mr) (hmr2 : mr ≤ 100)
    (hpos : ∀ r ∈ flatRows chunks, 0 ≤ r.weight ∧ 0 ≤ r.demand)
    (hx : satisfiesLP (buildLPModel techs chunks mr) x) :
    (((enabledOf techs).filter
        (fun t => t.type ≠ "renewable" ∧ t.type ≠ "storage")).map
      (fun t => ((((flatRows chunks).enum.filter
          (fun p => p.2.includeInStats)).map
        (fun p => p.2.weight * x (LPVar.g t.id p.1))).sum))).sum
    ≤ (1 - mr / 100) *
      (((flatRows chunks).filter (fun r => r.includeInStats)).map
        (fun r => r.demand * r.weight)).sum := by
  have hclaim :
      (((enabledOf techs).filter
          (fun t => t.type ≠ "renewable" ∧ t.type ≠ "storage")).map
        (fun t => ((((flatRows chunks).enum.filter
            (fun p => p.2.includeInStats)).map
          (fun p => p.2.weight * x (LPVar.g t.id p.1))).sum))).sum
      = evalTerms x (((enabledOf techs).filter
          (fun t => t.type ≠ "renewable" ∧ t.type ≠ "storage")).flatMap
          (fun t => ((flatRows chunks).enum.filter
              (fun p => p.2.includeInStats)).map
            (fun p => (p.2.weight, LPVar.g t.id p.1)))) := by
    rw [evalTerms_flatMap]
    congr 1
    refine List.map_congr_left (fun t _ => ?_)
    simp [evalTerms, List.map_map, Function.comp_def]
  have hD : 0 ≤ (((flatRows chunks).filter (fun r => r.includeInStats)).map
      (fun r => r.demand * r.weight)).sum := by
    refine List.sum_nonneg (fun a ha => ?_)
    obtain ⟨r, hr, rfl⟩ := List.mem_map.mp ha
    have hrf := hpos r (List.mem_of_mem_filter hr)
    exact mul_nonneg hrf.2 hrf.1
  by_cases hterm : ((enabledOf techs).filter
      (fun t => t.type ≠ "renewable" ∧ t.type ≠ "storage")).flatMap
      (fun t => ((flatRows chunks).enum.filter
          (fun p => p.2.includeInStats)).map
        (fun p => (p.2.weight, LPVar.g t.id p.1))) = []
  · rw [hclaim, hterm]
    simp only [evalTerms, List.map_nil, List.sum_nil]
    have h100 : 0 ≤ 1 - mr / 100 := by linarith
    exact mul_nonneg h100 hD
  · have hmem : (⟨"min_res_global",
        ((enabledOf techs).filter
          (fun t => t.type ≠ "renewable" ∧ t.type ≠ "storage")).flatMap
          (fun t => ((flatRows chunks).enum.filter
              (fun p => p.2.includeInStats)).map
            (fun p => (p.2.weight, LPVar.g t.id p.1))),
        Rel.le,
        (((flatRows chunks).filter (fun r => r.includeInStats)).map
          (fun r => r.demand * r.weight)).sum * (1 - mr / 100)⟩ : Cst)
        ∈ (buildLPModel techs chunks mr).constraints := by
      simp only [buildLPModel, List.mem_append]
      refine Or.inr ?_
      simp only [minRezCsts]
      rw [if_pos hmr, if_pos hterm]
      exact List.mem_singleton_self _
    have hc := hx.1 _ hmem
    simp only [cstHolds, Rel.holds] at hc
    rw [hclaim, mul_comm]
    exact hc

/-- Witness for C4: a 50 % renewables floor on the gas-only scenario. -/
theorem min_renewables_cap_witness :
    (0 : ℚ) < 50 ∧ (50 : ℚ) ≤ 100 ∧
    (∀ r ∈ flatRows [[rowD5]], 0 ≤ r.weight ∧ 0 ≤ r.demand) ∧
    satisfiesLP (buildLPModel [techGas] [[rowD5]] 50) xGasHalf ∧
    (((enabledOf [techGas]).filter
        (fun t => t.type ≠ "renewable" ∧ t.type ≠ "storage")).map
      (fun t => ((((flatRows [[rowD5]]).enum.filter
          (fun p => p.2.includeInStats)).map
        (fun p => p.2.weight * xGasHalf (LPVar.g t.id p.1))).sum))).sum
    ≤ (1 - (50 : ℚ) / 100) *
      (((flatRows [[rowD5]]).filter (fun r => r.includeInStats)).map
        (fun r => r.demand * r.weight)).sum := by
  have h1 : (0 : ℚ) < 50 := by norm_num
  have h2 : (50 : ℚ) ≤ 100 := by norm_num
  have h3 : ∀ r ∈ flatRows [[rowD5]], 0 ≤ r.weight ∧ 0 ≤ r.demand := by
    simp [flatRows, rowD5]
  have h4 : satisfiesLP (buildLPModel [techGas] [[rowD5]] 50) xGasHalf := by
    simp only [satisfiesLP, buildLPModel, enabledOf, flatRows, battIdOf, objTerms,
      lpVars, hourCsts, storageCsts, socDynCsts, capCst, balCst, fixPins,
      minRezCsts, profileOf, cstHolds, evalTerms, Rel.holds,
      techGas, rowD5, List.enum, List.enumFrom, List.flatten, List.filter,
      List.map, List.flatMap, List.append, List.range, List.range.loop,
      List.find?, Option.map, Option.isSome]
    simp [xGasHalf]
    norm_num
  exact ⟨h1, h2, h3, h4, min_renewables_cap h1 h2 h3 h4⟩

/-- C5: an enabled technology flagged fixed has its capacity variable
pinned by an equality row to `fixedCapacity · 1000` (GW → model units),
and the capacity the extractor reports for it equals that value for every
feasible assignment. -/
theorem fixed_capacity_pin {techs : List Tech} {chunks : List (List Row)}
    {mr : ℚ} {x : LPVar → ℚ} {t : Tech}
    (ht : t ∈ enabledOf techs) (hf : t.isFixed)
    (hx : satisfiesLP (buildLPModel techs chunks mr) x) :
    (∃ cst ∈ (buildLPModel techs chunks mr).constraints,
       cst.terms = [((1 : ℚ),
         if t.type = "storage" then LPVar.e t.id else LPVar.c t.id)] ∧
       cst.rel = Rel.eq ∧ cst.rhs = t.fixedCapacity.getD 0 * 1000) ∧
    extractCapacity x t = t.fixedCapacity.getD 0 * 1000 := by
  by_cases hs : t.type = "storage"
  · have hmem : (⟨"fix_e_" ++ t.id, [((1 : ℚ), LPVar.e t.id)], Rel.eq,
        t.fixedCapacity.getD 0 * 1000⟩ : Cst)
        ∈ (buildLPModel techs chunks mr).constraints :=
      mem_constraints_of_pin ht (by simp [fixPins, hs, hf])
    have hc := hx.1 _ hmem
    simp only [cstHolds, Rel.holds, evalTerms, List.map_cons, List.map_nil,
      List.sum_cons, List.sum_nil] at hc
    refine ⟨⟨_, hmem, by simp [hs], rfl, rfl⟩, ?_⟩
    simp only [extractCapacity, hs, if_true]
    linarith
  · have hmem : (⟨"fix_c_" ++ t.id, [((1 : ℚ), LPVar.c t.id)], Rel.eq,
        t.fixedCapacity.getD 0 * 1000⟩ : Cst)
        ∈ (buildLPModel techs chunks mr).constraints :=
      mem_constraints_of_pin ht (by simp [fixPins, hs, hf])
    have hc := hx.1 _ hmem
    simp only [cstHolds, Rel.holds, evalTerms, List.map_cons, List.map_nil,
      List.sum_cons, List.sum_nil] at hc
    refine ⟨⟨_, hmem, by simp [hs], rfl, rfl⟩, ?_⟩
    simp only [extractCapacity, hs, if_false]
    linarith

/-- Witness for C5: the pinned 2 GW nuclear scenario, extracted capacity
2000 model units. -/
theorem fixed_capacity_pin_witness :
    techNukeFix ∈ enabledOf [techNukeFix] ∧
    techNukeFix.isFixed = true ∧
    satisfiesLP (buildLPModel [techNukeFix] [[rowD5]] 0) xNuke ∧
    ((∃ cst ∈ (buildLPModel [techNukeFix] [[rowD5]] 0).constraints,
       cst.terms = [((1 : ℚ),
         if techNukeFix.type = "storage" then LPVar.e techNukeFix.id
         else LPVar.c techNukeFix.id)] ∧
       cst.rel = Rel.eq ∧ cst.rhs = techNukeFix.fixedCapacity.getD 0 * 1000) ∧
    extractCapacity xNuke techNukeFix = techNukeFix.fixedCapacity.getD 0 * 1000) := by
  have h1 : techNukeFix ∈ enabledOf [techNukeFix] := by
    simp [enabledOf, techNukeFix]
  have h2 : techNukeFix.isFixed = true := by simp [techNukeFix]
  have h3 : satisfiesLP (buildLPModel [techNukeFix] [[rowD5]] 0) xNuke := by
    simp only [satisfiesLP, buildLPModel, enabledOf, flatRows, battIdOf, objTerms,
      lpVars, hourCsts, storageCsts, socDynCsts, capCst, balCst, fixPins,
      minRezCsts, profileOf, cstHolds, evalTerms, Rel.holds,
      techNukeFix, rowD5, List.enum, List.enumFrom, List.flatten, List.filter,
      List.map, List.flatMap, List.append, List.range, List.range.loop,
      List.find?, Option.map, Option.isSome]
    simp [xNuke]
    norm_num
  exact ⟨h1, h2, h3, fixed_capacity_pin h1 h2 h3⟩

/-- C8: a solver status other than `Optimal` makes `optimizeWithHiGHS`
raise an error naming the status, and it never returns a result. -/
theorem solver_status_error (techs : List Tech) (chunks : List (List Row))
    (res : SolverResult) (h : res.status ≠ "Optimal") :
    optimizeWithHiGHS techs chunks res =
      Except.error ("Solver failed: " ++ res.status) ∧
    ∀ r : SimResult, optimizeWithHiGHS techs chunks res ≠ Except.ok r := by
  refine ⟨by simp [optimizeWithHiGHS, h], fun r hr => ?_⟩
  simp [optimizeWithHiGHS, h] at hr

/-- Witness for C8: an `Infeasible` status yields the named error. -/
theorem solver_status_error_witness :
    ("Infeasible" : String) ≠ "Optimal" ∧
    optimizeWithHiGHS [] [] ⟨"Infeasible", fun _ => 0⟩ =
      Except.error ("Solver failed: " ++ "Infeasible") :=
  ⟨by decide, (solver_status_error [] [] ⟨"Infeasible", fun _ => 0⟩ (by decide)).1⟩

/-- C6: with a positive lifetime, the annualized fixed cost is
`capex·(r·(1+r)^n/((1+r)^n−1)) + fixed opex` at a positive discount rate
and `capex/n + fixed opex` at a zero rate; and for an enabled storage
technology the LP objective carries, on its energy-capacity variable, the
per-energy annual cost built from capex-per-kWh (or capex over duration)
annualized the same way, plus fixed opex divided by the duration, times
1000. -/
theorem annualized_cost {techs : List Tech} {chunks : List (List Row)}
    {mr : ℚ} {t : Tech} (hn : 0 < t.lifetime) :
    (t.wacc = 0 → getAnnualFixedCost t = t.capex / t.lifetime + t.opexFixed) ∧
    (0 < t.wacc → getAnnualFixedCost t =
      t.capex * ((t.wacc / 100) * (1 + t.wacc / 100) ^ t.lifetime /
        ((1 + t.wacc / 100) ^ t.lifetime - 1)) + t.opexFixed) ∧
    (t ∈ enabledOf techs → t.type = "storage" →
      (((if t.wacc / 100 = 0 then
            jsOr t.capexPerKwh (t.capex / jsOr t.duration 4) / t.lifetime
          else
            jsOr t.capexPerKwh (t.capex / jsOr t.duration 4) *
              crf (t.wacc / 100) t.lifetime)
        + t.opexFixed / jsOr t.duration 4) * 1000, LPVar.e t.id)
        ∈ (buildLPModel techs chunks mr).objective) := by
  refine ⟨fun h0 => ?_, fun hw => ?_, fun hmem hs => ?_⟩
  · simp [getAnnualFixedCost, h0, hn]
  · have hw' : t.wacc / 100 ≠ 0 := by positivity
    simp [getAnnualFixedCost, crf, hn, hw']
  · have heq : ((if t.wacc / 100 = 0 then
          jsOr t.capexPerKwh (t.capex / jsOr t.duration 4) / t.lifetime
        else
          jsOr t.capexPerKwh (t.capex / jsOr t.duration 4) *
            crf (t.wacc / 100) t.lifetime)
        + t.opexFixed / jsOr t.duration 4) * 1000
        = storageAnnualCostPerMwh t := by
      simp [storageAnnualCostPerMwh, hn]
    rw [heq]
    simp only [buildLPModel, objTerms, List.mem_append]
    exact Or.inl (List.mem_map.mpr ⟨t, hmem, by simp [hs]⟩)

/-- Witness for C6: a battery with 10 % WACC and a 2-year lifetime. -/
theorem annualized_cost_witness :
    0 < techBatt2.lifetime ∧
    ((techBatt2.wacc = 0 →
      getAnnualFixedCost techBatt2 = techBatt2.capex / techBatt2.lifetime + techBatt2.opexFixed) ∧
    (0 < techBatt2.wacc → getAnnualFixedCost techBatt2 =
      techBatt2.capex * ((techBatt2.wacc / 100) * (1 + techBatt2.wacc / 100) ^ techBatt2.lifetime /
        ((1 + techBatt2.wacc / 100) ^ techBatt2.lifetime - 1)) + techBatt2.opexFixed) ∧
    (techBatt2 ∈ enabledOf [techBatt2] → techBatt2.type = "storage" →
      (((if techBatt2.wacc / 100 = 0 then
            jsOr techBatt2.capexPerKwh (techBatt2.capex / jsOr techBatt2.duration 4) / techBatt2.lifetime
          else
            jsOr techBatt2.capexPerKwh (techBatt2.capex / jsOr techBatt2.duration 4) *
              crf (techBatt2.wacc / 100) techBatt2.lifetime)
        + techBatt2.opexFixed / jsOr techBatt2.duration 4) * 1000, LPVar.e techBatt2.id)
        ∈ (buildLPModel [techBatt2] [[rowD3]] 0).objective)) := by
  have hn : 0 < techBatt2.lifetime := by simp [techBatt2]
  exact ⟨hn, annualized_cost hn⟩

/-- Left-to-right transport of a filtered map over `enum` down to the
underlying list, for summing per-row quantities. -/
lemma map_filter_snd (l : List (ℕ × Row)) (f : Row → ℚ) :
    (l.filter (fun p => p.2.includeInStats)).map (fun p => f p.2)
      = ((l.map Prod.snd).filter (fun r => r.includeInStats)).map f := by
  induction l with
  | nil => rfl
  | cons a l ih =>
    simp only [List.map_cons, List.filter_cons]
    cases h : a.2.includeInStats <;> simp [h, ih]

lemma sum_enum_filter_snd (flat : List Row) (f : Row → ℚ) :
    ((flat.enum.filter (fun p => p.2.includeInStats)).map (fun p => f p.2)).sum
      = ((flat.filter (fun r => r.includeInStats)).map f).sum := by
  rw [map_filter_snd, List.enum_map_snd]

/-- C7 (amended): for every hour, the extractor reports, alongside the
hour's shortfall, a curtailment equal to the sum over enabled renewables
of the spill `capacity·availability − generation`, counted only when it
exceeds the `0.001` reporting tolerance (each term equals
`max(0, capacity·availability − generation)` above the tolerance and `0`
below it); the reported value is never negative, is a derived function of
the solved values, and non-renewable technologies contribute nothing. -/
theorem curtailment_reporting {techs : List Tech} {chunks : List (List Row)}
    {x : LPVar → ℚ} {i : ℕ} {row : Row}
    (hrow : (i, row) ∈ (flatRows chunks).enum) :
    (({ shortfall := x (LPVar.u i),
        curtailment := hourlyCurtailment x (capsOf x (enabledOf techs))
          (enabledOf techs) i row } : HourOut)
      ∈ (extractResults techs chunks x).hourly) ∧
    0 ≤ hourlyCurtailment x (capsOf x (enabledOf techs)) (enabledOf techs) i row ∧
    (∀ t : Tech, t.type ≠ "renewable" →
      curtailContrib x (capsOf x (enabledOf techs)) i row t = 0) ∧
    (∀ t : Tech, t.type = "renewable" →
      curtailContrib x (capsOf x (enabledOf techs)) i row t =
        if capsOf x (enabledOf techs) t.id * profileOf t row
            - x (LPVar.g t.id i) > 1/1000 then
          max 0 (capsOf x (enabledOf techs) t.id * profileOf t row
            - x (LPVar.g t.id i))
        else 0) := by
  refine ⟨?_, ?_, fun t hnr => ?_, fun t hren => ?_⟩
  · simp only [extractResults]
    exact List.mem_map_of_mem _ hrow
  · refine List.sum_nonneg (fun a ha => ?_)
    obtain ⟨t, _, rfl⟩ := List.mem_map.mp ha
    simp only [curtailContrib]
    split_ifs with h1 h2
    · linarith
    · exact le_refl 0
    · exact le_refl 0
  · simp [curtailContrib, hnr]
  · simp only [curtailContrib, hren, if_true]
    split_ifs with h1 h2
    · exact (max_eq_right (by linarith)).symm
    · linarith
    · linarith
    · rfl

/-- Witness for C7 (amended): the solar scenario with availability one
half at hour 0. -/
theorem curtailment_reporting_witness :
    (0, rowSun) ∈ (flatRows [[rowSun]]).enum ∧
    (({ shortfall := xSun (LPVar.u 0),
        curtailment := hourlyCurtailment xSun (capsOf xSun (enabledOf [techSolar]))
          (enabledOf [techSolar]) 0 rowSun } : HourOut)
      ∈ (extractResults [techSolar] [[rowSun]] xSun).hourly) ∧
    0 ≤ hourlyCurtailment xSun (capsOf xSun (enabledOf [techSolar]))
      (enabledOf [techSolar]) 0 rowSun := by
  have h1 : (0, rowSun) ∈ (flatRows [[rowSun]]).enum := by
    simp [flatRows, List.enum, List.enumFrom]
  have h := @curtailment_reporting [techSolar] [[rowSun]] xSun 0 rowSun h1
  exact ⟨h1, h.1, h.2.1⟩

/-- C7 counterexample: with solar availability `1/2000` (positive but
below the `0.001` tolerance), solved capacity 1 and generation 0, the
extractor reports curtailment 0 for the hour, while
`max(0, capacity·availability − generation) = 1/2000 ≠ 0` — so the
reported curtailment does not equal the claimed formula. -/
theorem curtailment_counterexample :
    satisfiesLP (buildLPModel [techSolar] [[rowDim]] 0) xDim ∧
    (extractResults [techSolar] [[rowDim]] xDim).hourly =
      [{ shortfall := 0, curtailment := 0 }] ∧
    max 0 (capsOf xDim (enabledOf [techSolar]) techSolar.id * profileOf techSolar rowDim
      - xDim (LPVar.g techSolar.id 0)) = 1/2000 := by
  refine ⟨?_, ?_, ?_⟩
  · simp only [satisfiesLP, buildLPModel, enabledOf, flatRows, battIdOf, objTerms,
      lpVars, hourCsts, storageCsts, socDynCsts, capCst, balCst, fixPins,
      minRezCsts, profileOf, cstHolds, evalTerms, Rel.holds,
      techSolar, rowDim, List.enum, List.enumFrom, List.flatten, List.filter,
      List.map, List.flatMap, List.append, List.range, List.range.loop,
      List.find?, Option.map, Option.isSome]
    simp [xDim]
    norm_num
  · simp only [extractResults, enabledOf, flatRows, battIdOf,
      hourlyCurtailment, curtailContrib, capsOf, extractCapacity, profileOf,
      techSolar, rowDim, List.enum, List.enumFrom, List.flatten, List.filter,
      List.map, List.flatMap, List.append, List.find?, Option.map, Option.isSome]
    simp [xDim]
    norm_num
  · have hc : capsOf xDim (enabledOf [techSolar]) techSolar.id = 1 := by
      simp [capsOf, enabledOf, extractCapacity, techSolar, List.find?, xDim]
    have hp : profileOf techSolar rowDim = 1/2000 := by
      simp [profileOf, techSolar, rowDim]
    have hg : xDim (LPVar.g techSolar.id 0) = 0 := by
      simp [techSolar, xDim]
    rw [hc, hp, hg]
    rw [max_eq_right (by norm_num)]
    norm_num

/-- C9: the LCOE denominator is always the guard `max(0.1, served energy)`
— at least `0.1`, so the division is defined for every input — and with no
technologies enabled every feasible assignment serves nothing: each hour's
unserved energy equals its demand, weighted unserved equals weighted
demand, and the guarded denominator is exactly `0.1`. -/
theorem lcoe_guarded {techs : List Tech} {chunks : List (List Row)}
    {mr : ℚ} {x : LPVar → ℚ}
    (hno : enabledOf techs = [])
    (hx : satisfiesLP (buildLPModel techs chunks mr) x) :
    (∀ (techs' : List Tech) (chunks' : List (List Row)) (x' : LPVar → ℚ),
      (extractResults techs' chunks' x').annualServed =
        max (1/10) (annualDemandOf (flatRows chunks')
          - annualUnservedOf x' (flatRows chunks')) ∧
      (1/10 : ℚ) ≤ (extractResults techs' chunks' x').annualServed ∧
      (extractResults techs' chunks' x').lcoe =
        (extractResults techs' chunks' x').totalCost /
          (extractResults techs' chunks' x').annualServed) ∧
    (∀ p ∈ (flatRows chunks).enum, x (LPVar.u p.1) = p.2.demand) ∧
    annualUnservedOf x (flatRows chunks) = annualDemandOf (flatRows chunks) ∧
    (extractResults techs chunks x).annualServed = 1/10 := by
  have hpart1 : ∀ (techs' : List Tech) (chunks' : List (List Row)) (x' : LPVar → ℚ),
      (extractResults techs' chunks' x').annualServed =
        max (1/10) (annualDemandOf (flatRows chunks')
          - annualUnservedOf x' (flatRows chunks')) ∧
      (1/10 : ℚ) ≤ (extractResults techs' chunks' x').annualServed ∧
      (extractResults techs' chunks' x').lcoe =
        (extractResults techs' chunks' x').totalCost /
          (extractResults techs' chunks' x').annualServed := by
    intro techs' chunks' x'
    refine ⟨rfl, ?_, rfl⟩
    exact le_max_left _ _
  have hu : ∀ p ∈ (flatRows chunks).enum, x (LPVar.u p.1) = p.2.demand := by
    rintro ⟨i, row⟩ hp
    have hbal := balance_eq hx hp
    rw [hno] at hbal
    simp [battIdOf, hno] at hbal
    simpa using hbal
  have huns : annualUnservedOf x (flatRows chunks)
      = annualDemandOf (flatRows chunks) := by
    unfold annualUnservedOf annualDemandOf
    rw [List.map_congr_left (fun p hp => ?_), sum_enum_filter_snd (flatRows chunks)
      (fun r => r.demand * r.weight)]
    rw [hu p (List.mem_of_mem_filter hp)]
  refine ⟨hpart1, hu, huns, ?_⟩
  have : (extractResults techs chunks x).annualServed =
      max (1/10) (annualDemandOf (flatRows chunks)
        - annualUnservedOf x (flatRows chunks)) := (hpart1 techs chunks x).1
  rw [this, huns, sub_self]
  exact max_eq_left (by norm_num)

/-- Witness for C9: the empty catalog with one demand-5 hour, everything
unserved. -/
theorem lcoe_guarded_witness :
    enabledOf ([] : List Tech) = [] ∧
    satisfiesLP (buildLPModel [] [[rowD5]] 0) xNone ∧
    annualUnservedOf xNone (flatRows [[rowD5]]) = annualDemandOf (flatRows [[rowD5]]) ∧
    (extractResults [] [[rowD5]] xNone).annualServed = 1/10 := by
  have h1 : enabledOf ([] : List Tech) = [] := rfl
  have h2 : satisfiesLP (buildLPModel [] [[rowD5]] 0) xNone := by
    simp only [satisfiesLP, buildLPModel, enabledOf, flatRows, battIdOf, objTerms,
      lpVars, hourCsts, storageCsts, socDynCsts, capCst, balCst, fixPins,
      minRezCsts, profileOf, cstHolds, evalTerms, Rel.holds,
      rowD5, List.enum, List.enumFrom, List.flatten, List.filter,
      List.map, List.flatMap, List.append, List.range, List.range.loop,
      List.find?, Option.map, Option.isSome]
    simp [xNone]
  have h := lcoe_guarded h1 h2
  exact ⟨h1, h2, h.2.2.1, h.2.2.2⟩

/-- C10: the server-side annual fixed unit cost is exactly 52 times the
client-side weekly fixed unit cost, for every technology definition. -/
theorem annual_is_52_weekly (t : Tech) :
    getAnnualFixedCost t = 52 * getWeeklyFixedCost t := by
  simp only [getAnnualFixedCost, getWeeklyFixedCost]
  field_simp

end PowerTetris
